import Mathlib

/-!
Verification development for the transactional outbox pipeline of the
`aequatio` backend: the outbox data model (`app/persistence/models/outbox.py`,
migration `0001_create_events_outbox.py`), the writer contract
(`app/outbox/repository.py`, `add_outbox_event`) and the dispatcher's
poll/claim/publish/acknowledge protocol (`app/outbox/dispatcher.py`,
`OutboxDispatcher`).

The embedding is shallow: timestamps and row ids are `Nat`, the JSON payload
is a small inductive with an encoder standing for `json.dumps`, the database
is a list of rows, and the effects of the SQL statements issued by the code
(`SELECT ... FOR UPDATE SKIP LOCKED`, the two `UPDATE` statements, ORM
`INSERT`) are explicit functions on that list.  Broker and database failures
are injected through explicit per-record outcome parameters, mirroring the
`try`/`except` structure of `OutboxDispatcher.run`.
-/

namespace Aequatio

/-- JSON-like values, modelling the Python `dict` payload stored in the
`sa.JSON` column and serialized with `json.dumps` by the dispatcher. -/
inductive Json where
  | null : Json
  | bool (b : Bool) : Json
  | num (n : Int) : Json
  | str (s : String) : Json
  | arr (xs : List Json) : Json
  | obj (fields : List (String × Json)) : Json

mutual

/-- Model of `json.dumps` on a payload value (string escaping elided). -/
def Json.encode : Json → String
  | .null => "null"
  | .bool true => "true"
  | .bool false => "false"
  | .num n => toString n
  | .str s => "\"" ++ s ++ "\""
  | .arr xs => "[" ++ Json.encodeArr xs ++ "]"
  | .obj fs => "\x7b" ++ Json.encodeObj fs ++ "\x7d"

/-- Comma-separated encoding of a JSON array body. -/
def Json.encodeArr : List Json → String
  | [] => ""
  | [x] => Json.encode x
  | x :: y :: xs => Json.encode x ++ ", " ++ Json.encodeArr (y :: xs)

/-- Comma-separated encoding of a JSON object body. -/
def Json.encodeObj : List (String × Json) → String
  | [] => ""
  | [(k, v)] => "\"" ++ k ++ "\": " ++ Json.encode v
  | (k, v) :: f :: fs =>
      "\"" ++ k ++ "\": " ++ Json.encode v ++ ", " ++ Json.encodeObj (f :: fs)

end

/-- One row of the `events_outbox` table (`OutboxEvent` in
`app/persistence/models/outbox.py`).  Timestamps are `Nat` instants,
the UUID primary key is a `Nat`, nullable columns are `Option`. -/
structure OutboxRow where
  id : Nat
  aggregate_type : String
  aggregate_id : String
  event_type : String
  event_version : Nat
  payload : Json
  occurred_at : Nat
  created_at : Nat
  published_at : Option Nat
  attempt_count : Nat
  last_error : Option String

/-- The `ORDER BY created_at` comparison used by the claim query. -/
def byCreatedAt (a b : OutboxRow) : Prop := a.created_at ≤ b.created_at

instance : DecidableRel byCreatedAt := fun a b => Nat.decLe a.created_at b.created_at

instance : IsTotal OutboxRow byCreatedAt := ⟨fun a b => Nat.le_total a.created_at b.created_at⟩

instance : IsTrans OutboxRow byCreatedAt := ⟨fun _ _ _ h h' => Nat.le_trans h h'⟩

/-- The claim query of `OutboxDispatcher._fetch_batch` (dispatcher.py lines
72-81): `SELECT * FROM events_outbox WHERE published_at IS NULL ORDER BY
created_at LIMIT batch_size FOR UPDATE SKIP LOCKED`.  `lockedIds` are the row
ids currently locked by other open transactions; `SKIP LOCKED` removes them
before the limit is applied. -/
def fetchBatch (batchSize : Nat) (lockedIds : List Nat) (rows : List OutboxRow) :
    List OutboxRow :=
  ((rows.filter
      (fun r => r.published_at.isNone && !(lockedIds.contains r.id))).insertionSort
        byCreatedAt).take batchSize

/-- An AMQP message as assembled and published by `OutboxDispatcher.run`
(lines 93-104) and `OutboxDispatcher._publish` (lines 47-70). -/
structure BrokerMessage where
  exchange : String
  exchangeType : String
  durable : Bool
  routingKey : String
  contentType : String
  deliveryMode : Nat
  headers : List (String × String)
  body : String

/-- The headers dict built in `OutboxDispatcher.run` lines 97-103. -/
def buildHeaders (evt : OutboxRow) : List (String × String) :=
  [("event_id", toString evt.id),
   ("event_type", evt.event_type),
   ("aggregate_type", evt.aggregate_type),
   ("aggregate_id", evt.aggregate_id),
   ("event_version", toString evt.event_version)]

/-- The full message for a record: routing key and body from `run` lines
95-96, exchange declaration and basic properties from `_publish` lines
56-65 (`exchange_declare(exchange="domain.events", exchange_type="topic",
durable=True)`, `content_type="application/json"`, `delivery_mode=2`). -/
def buildMessage (evt : OutboxRow) : BrokerMessage :=
  { exchange := "domain.events"
    exchangeType := "topic"
    durable := true
    routingKey := evt.aggregate_type ++ "." ++ evt.event_type
    contentType := "application/json"
    deliveryMode := 2
    headers := buildHeaders evt
    body := Json.encode evt.payload }

/-- Effect of the success-path `UPDATE` (dispatcher.py lines 107-118):
`UPDATE events_outbox SET published_at = now, attempt_count = evtAttempts + 1,
last_error = NULL WHERE id = targetId`.  `evtAttempts` is the Python-side
value `evt.attempt_count` read from the session, sent as a literal. -/
def markPublished (now evtAttempts targetId : Nat) (rows : List OutboxRow) :
    List OutboxRow :=
  rows.map fun r =>
    if r.id = targetId then
      { r with published_at := some now
               attempt_count := evtAttempts + 1
               last_error := none }
    else r

/-- Effect of the failure-path `UPDATE` (dispatcher.py lines 123-133):
`UPDATE events_outbox SET attempt_count = attempt_count + 1, last_error = msg
WHERE id = targetId`; the increment is evaluated server-side and
`published_at` is untouched. -/
def markFailed (msg : String) (targetId : Nat) (rows : List OutboxRow) :
    List OutboxRow :=
  rows.map fun r =>
    if r.id = targetId then
      { r with attempt_count := r.attempt_count + 1
               last_error := some msg }
    else r

/-- Re-reading a row by primary key.  After a `session.commit()` the ORM
expires `evt`, so the next attribute access reloads the current row; this
models that reload (and the `WHERE id = evt.id` of the updates). -/
def lookupRow (i : Nat) (rows : List OutboxRow) : Option OutboxRow :=
  rows.find? (fun x => x.id == i)

/-- Externally injected outcome of the three fallible effects the loop body
of `OutboxDispatcher.run` performs for one record: the broker publish
(`pubError = some msg` means `_publish` raised `msg`), the success-path
status update (`statusError = some msg` means `session.execute`/`commit`
raised after a successful publish), and the failure-path update
(`failUpdateOk = false` means it raised and was swallowed, lines 134-138). -/
structure RecordEnv where
  pubError : Option String
  statusError : Option String
  failUpdateOk : Bool

/-- One iteration of the `for evt in events` loop of `OutboxDispatcher.run`
(lines 93-143) for the record with id `evtId`: build the message, publish,
then on success run the success update and commit; any exception falls into
the `except` branch which runs the failure update with the exception text.
Returns the database after the record's own commits together with the list
of messages actually handed to the broker. -/
def processRecord (env : RecordEnv) (now : Nat) (evtId : Nat)
    (rows : List OutboxRow) : List OutboxRow × List BrokerMessage :=
  match lookupRow evtId rows with
  | none => (rows, [])
  | some cur =>
    match env.pubError with
    | some msg =>
        ((if env.failUpdateOk then markFailed msg evtId rows else rows), [])
    | none =>
        match env.statusError with
        | none =>
            (markPublished now cur.attempt_count evtId rows, [buildMessage cur])
        | some umsg =>
            ((if env.failUpdateOk then markFailed umsg evtId rows else rows),
             [buildMessage cur])

/-- The net effect of `processRecord` on the target row itself, as a function
of that row alone (used to state that a record's outcome depends only on its
own publish/update results). -/
def recordOutcome (env : RecordEnv) (now : Nat) (r : OutboxRow) : OutboxRow :=
  match env.pubError with
  | some msg =>
      if env.failUpdateOk then
        { r with attempt_count := r.attempt_count + 1, last_error := some msg }
      else r
  | none =>
      match env.statusError with
      | none =>
          { r with published_at := some now
                   attempt_count := r.attempt_count + 1
                   last_error := none }
      | some umsg =>
          if env.failUpdateOk then
            { r with attempt_count := r.attempt_count + 1
                     last_error := some umsg }
          else r

/-- Sequential processing of the claimed batch, in claim order (the
`for evt in events` loop). -/
def runBatch (now : Nat) (env : Nat → RecordEnv) :
    List Nat → List OutboxRow → List OutboxRow × List BrokerMessage
  | [], rows => (rows, [])
  | i :: rest, rows =>
      let step := processRecord (env i) now i rows
      let tail := runBatch now env rest step.1
      (tail.1, step.2 ++ tail.2)

/-- Static dispatcher configuration (constructor arguments `batch_size`,
`poll_interval`). -/
structure DispatcherConfig where
  batchSize : Nat
  pollInterval : Nat

/-- Observable result of one dispatch cycle: the database afterwards, the
messages published, the ids attempted in order, and whether the cycle slept
on an empty batch. -/
structure CycleResult where
  rows : List OutboxRow
  messages : List BrokerMessage
  attempted : List Nat
  slept : Bool

/-- One dispatch cycle of a single dispatcher (`OutboxDispatcher.run` lines
87-143): claim a batch; if empty, sleep; otherwise process each claimed
record sequentially. -/
def runCycle (cfg : DispatcherConfig) (env : Nat → RecordEnv) (now : Nat)
    (rows : List OutboxRow) : CycleResult :=
  let batch := fetchBatch cfg.batchSize [] rows
  if batch.isEmpty then
    { rows := rows, messages := [], attempted := [], slept := true }
  else
    let res := runBatch now env (batch.map (·.id)) rows
    { rows := res.1, messages := res.2, attempted := batch.map (·.id),
      slept := false }

/-- Environment of one cycle of the outer `while` loop: whether the claim
query itself raised (`except SQLAlchemyError` / `except Exception` at lines
144-149), the per-record outcomes, and the cycle's clock. -/
structure CycleEnv where
  claimError : Bool
  recEnv : Nat → RecordEnv
  now : Nat

/-- One iteration of the outer loop: a claim-time error aborts the cycle,
leaves the database untouched and sleeps for the poll interval; otherwise the
cycle runs normally. -/
def runCycleE (cfg : DispatcherConfig) (ce : CycleEnv) (rows : List OutboxRow) :
    CycleResult :=
  if ce.claimError then
    { rows := rows, messages := [], attempted := [], slept := true }
  else runCycle cfg ce.recEnv ce.now rows

/-- The steady-state dispatcher loop over a finite schedule of cycle
environments (the `while not self._stopped` loop, which keeps iterating after
any aborted cycle). -/
def runLoop (cfg : DispatcherConfig) :
    List CycleEnv → List OutboxRow → List OutboxRow × List BrokerMessage
  | [], rows => (rows, [])
  | ce :: rest, rows =>
      let res := runCycleE cfg ce rows
      let tail := runLoop cfg rest res.rows
      (tail.1, res.messages ++ tail.2)

/-- Per-record outcomes induced by a broker that rejects every publish of a
record until its `attempt_count` has reached `acceptFrom` and accepts from
then on; the database updates always succeed.  This is the publish-failure
simulation of the spec's testable properties. -/
def retryEnv (acceptFrom : Nat) (rows : List OutboxRow) : Nat → RecordEnv :=
  fun i =>
    match lookupRow i rows with
    | some r =>
        { pubError :=
            if r.attempt_count < acceptFrom then some "broker rejected" else none
          statusError := none
          failUpdateOk := true }
    | none => { pubError := none, statusError := none, failUpdateOk := true }

/-- Run `k` dispatch cycles against the `retryEnv acceptFrom` broker starting
at instant `t`, the clock advancing by one per cycle. -/
def runRetryCycles (cfg : DispatcherConfig) (acceptFrom : Nat) :
    Nat → Nat → List OutboxRow → List OutboxRow
  | 0, _, rows => rows
  | k + 1, t, rows =>
      runRetryCycles cfg acceptFrom k (t + 1)
        (runCycle cfg (retryEnv acceptFrom rows) t rows).rows

/-! ### Concurrent dispatchers

A small interpreter for several dispatcher instances running against the same
store.  Row locks are transaction-scoped, as in PostgreSQL: the claim query
locks every returned row for the claiming dispatcher's open transaction, and
`session.commit()` — which `OutboxDispatcher.run` issues after every single
record — ends that transaction and releases ALL locks it holds, including the
locks on the not-yet-processed rows of the same batch. -/

/-- Shared state of the store plus the local state of each dispatcher.
`locks` maps a locked row id to the dispatcher holding it; `queues d` is the
list of claimed ids dispatcher `d` has not yet processed (the remainder of
its Python-side `events` list); `published` and `commits` are append-only
logs of `(dispatcher, rowId)` publish events and status-update commits, in
execution order. -/
structure MultiState where
  rows : List OutboxRow
  locks : List (Nat × Nat)
  queues : List (List Nat)
  published : List (Nat × Nat)
  commits : List (Nat × Nat)

/-- Atomic actions of the interleaving: `claim d` runs dispatcher `d`'s claim
query (a fresh transaction), `proc d now` lets dispatcher `d` process the
next record of its claimed batch — publish, success update, commit — at
instant `now`.  The broker accepts every publish and the updates succeed, as
in the concurrent-dispatchers scenario of the spec. -/
inductive DAct where
  | claim (d : Nat)
  | proc (d : Nat) (now : Nat)

/-- Dispatcher `d` executes `_fetch_batch` in a new transaction: rows locked
by any other open transaction are skipped (`d` holds no locks at this point),
the returned rows become locked by `d`, and their ids become `d`'s batch. -/
def doClaim (batchSize d : Nat) (s : MultiState) : MultiState :=
  let batch := fetchBatch batchSize (s.locks.map (·.1)) s.rows
  { s with
    queues := s.queues.set d (batch.map (·.id))
    locks := s.locks ++ batch.map (fun r => (r.id, d)) }

/-- Dispatcher `d` processes the next id of its batch: it re-reads the row
(the ORM refreshes expired attributes from the store), publishes the message,
runs the success update, and commits — the commit releasing every lock `d`
still holds. -/
def doProc (d now : Nat) (s : MultiState) : MultiState :=
  match s.queues.getD d [] with
  | [] => s
  | i :: rest =>
    match lookupRow i s.rows with
    | none => s
    | some cur =>
        { rows := markPublished now cur.attempt_count i s.rows
          locks := s.locks.filter (fun p => p.2 ≠ d)
          queues := s.queues.set d rest
          published := s.published ++ [(d, i)]
          commits := s.commits ++ [(d, i)] }

/-- Run a schedule of interleaved dispatcher actions. -/
def runActs (batchSize : Nat) : List DAct → MultiState → MultiState
  | [], s => s
  | .claim d :: rest, s => runActs batchSize rest (doClaim batchSize d s)
  | .proc d now :: rest, s => runActs batchSize rest (doProc d now s)

/-! ### Outbox writer and ORM insert -/

/-- The transient `OutboxEvent` object constructed by `add_outbox_event`
before it is flushed: exactly the six constructor arguments passed at
repository.py lines 59-66.  `id`, `created_at`, `published_at`,
`attempt_count` and `last_error` are not set there; they are filled in by the
column defaults at insert time. -/
structure StagedEvent where
  aggregate_type : String
  aggregate_id : String
  event_type : String
  event_version : Nat
  payload : Json
  occurred_at : Nat

/-- Operations `add_outbox_event` can perform on the SQLAlchemy session (the
observable effect surface checked by `tests/test_outbox_repository.py` with a
session mock), plus a marker for any network call. -/
inductive SessionOp where
  | add (e : StagedEvent)
  | commitTx
  | rollbackTx
  | networkCall

/-- `add_outbox_event` (repository.py lines 18-69): fill in the defaults
(`aggregate_type = "DomainEvent"`, `aggregate_id = "0"`, `event_version = 1`,
`occurred_at = datetime.datetime.utcnow()` when omitted), construct the
event, `db.add` it, and return it.  `now` is the wall clock read by
`utcnow()`.  The returned operation list is everything the function does to
the session. -/
def add_outbox_event (now : Nat) (event_type : String) (payload : Json)
    (aggregate_type : String := "DomainEvent") (aggregate_id : String := "0")
    (event_version : Nat := 1) (occurred_at : Option Nat := none) :
    StagedEvent × List SessionOp :=
  let evt : StagedEvent :=
    { aggregate_type := aggregate_type
      aggregate_id := aggregate_id
      event_type := event_type
      event_version := event_version
      payload := payload
      occurred_at := occurred_at.getD now }
  (evt, [SessionOp.add evt])

/-- The values the ORM sends in the `INSERT` for a staged event.  Column-level
Python defaults (`default=` in `models/outbox.py`) are applied client-side at
flush time, so those columns appear explicitly in the statement; a column is
`none` only when genuinely omitted from the `INSERT`. -/
structure InsertValues where
  id : Nat
  aggregate_type : String
  aggregate_id : String
  event_type : String
  event_version : Nat
  payload : Json
  occurred_at : Nat
  created_at : Option Nat
  attempt_count : Option Nat

/-- Server-side semantics of one `INSERT` into `events_outbox` under the DDL
of migration `0001_create_events_outbox.py`: `created_at` falls back to the
server default `now()` (the server clock `serverNow`) only when the column is
omitted, `attempt_count` falls back to the server default `0`, and
`published_at`/`last_error` start NULL. -/
def sqlInsert (serverNow : Nat) (v : InsertValues) : OutboxRow :=
  { id := v.id
    aggregate_type := v.aggregate_type
    aggregate_id := v.aggregate_id
    event_type := v.event_type
    event_version := v.event_version
    payload := v.payload
    occurred_at := v.occurred_at
    created_at := v.created_at.getD serverNow
    published_at := none
    attempt_count := v.attempt_count.getD 0
    last_error := none }

/-- The `INSERT` values the ORM produces for a staged `OutboxEvent`
(models/outbox.py lines 16-26): the Python column defaults run on the client
at flush time — `id` from `uuid.uuid4` (modelled by `newId`), `created_at`
from `datetime.datetime.utcnow` (the client clock `clientNow`),
`attempt_count = 0` — so `created_at` and `attempt_count` are present in the
statement. -/
def ormInsertValues (clientNow newId : Nat) (e : StagedEvent) : InsertValues :=
  { id := newId
    aggregate_type := e.aggregate_type
    aggregate_id := e.aggregate_id
    event_type := e.event_type
    event_version := e.event_version
    payload := e.payload
    occurred_at := e.occurred_at
    created_at := some clientNow
    attempt_count := some 0 }

/-- The durable row produced by flushing a staged event through the ORM while
the database server clock reads `serverNow` and the client clock reads
`clientNow`. -/
def ormInsert (clientNow serverNow newId : Nat) (e : StagedEvent) : OutboxRow :=
  sqlInsert serverNow (ormInsertValues clientNow newId e)

/-- A SQLAlchemy session as seen by the outbox writer: the events staged with
`db.add` since the last transaction boundary, and the durable table. -/
structure DbSession where
  staged : List StagedEvent
  durable : List OutboxRow

/-- Caller-side `db.commit()`: flush every staged event through the ORM
insert (ids assigned in sequence from `baseId`) and make them durable. -/
def commitSession (clientNow serverNow baseId : Nat) (s : DbSession) : DbSession :=
  { staged := []
    durable := s.durable ++
      (s.staged.enum.map (fun p => ormInsert clientNow serverNow (baseId + p.1) p.2)) }

/-- Caller-side `db.rollback()`: the staged events are discarded, the durable
table is untouched. -/
def rollbackSession (s : DbSession) : DbSession :=
  { staged := [], durable := s.durable }

/-- Applying one session operation to the session state. -/
def applyOp (clientNow serverNow baseId : Nat) (s : DbSession) :
    SessionOp → DbSession
  | .add e => { s with staged := s.staged ++ [e] }
  | .commitTx => commitSession clientNow serverNow baseId s
  | .rollbackTx => rollbackSession s
  | .networkCall => s

/-- Applying a list of session operations in order. -/
def applyOps (clientNow serverNow baseId : Nat) (ops : List SessionOp)
    (s : DbSession) : DbSession :=
  ops.foldl (applyOp clientNow serverNow baseId) s

/-! ### Concrete fixtures -/

/-- A pending outbox row with id `i` and creation instant `c`, as produced by
committing a `user.registered` enqueue. -/
def traceRow (i c : Nat) : OutboxRow :=
  { id := i
    aggregate_type := "User"
    aggregate_id := "1"
    event_type := "user.registered"
    event_version := 1
    payload := Json.obj [("user_id", Json.str "1")]
    occurred_at := 0
    created_at := c
    published_at := none
    attempt_count := 0
    last_error := none }

/-- Initial store for the two-dispatcher interleaving: two pending rows, no
locks, two idle dispatchers. -/
def traceInit : MultiState :=
  { rows := [traceRow 1 1, traceRow 2 2]
    locks := []
    queues := [[], []]
    published := []
    commits := [] }

/-- The interleaving exhibiting the lock-release race: dispatcher 0 claims
both rows; processes row 1 (its per-record commit releases its lock on row
2); dispatcher 1 then claims row 2, publishes and commits it; dispatcher 0
finally processes row 2 from its stale batch and publishes it a second
time. -/
def traceSched : List DAct :=
  [DAct.claim 0, DAct.proc 0 10, DAct.claim 1, DAct.proc 1 20, DAct.proc 0 30]

/-- An already-published row (used as a concrete instance). -/
def wPublishedRow : OutboxRow :=
  { traceRow 1 1 with published_at := some 3, attempt_count := 1 }

/-- A record environment in which broker and database always succeed. -/
def wOkEnv : Nat → RecordEnv :=
  fun _ => { pubError := none, statusError := none, failUpdateOk := true }

/-- A record environment in which every broker publish raises. -/
def wFailEnv : Nat → RecordEnv :=
  fun _ => { pubError := some "connection refused", statusError := none,
             failUpdateOk := true }

/-- A staged event with explicit field values (used as a concrete instance). -/
def wStagedEvent : StagedEvent :=
  { aggregate_type := "User"
    aggregate_id := "1"
    event_type := "user.registered"
    event_version := 1
    payload := Json.obj [("user_id", Json.str "1")]
    occurred_at := 4 }

/-! ### Basic lemmas about the claim query -/

theorem mem_rows_of_mem_fetchBatch {n : Nat} {locked : List Nat}
    {rows : List OutboxRow} {b : OutboxRow} (hb : b ∈ fetchBatch n locked rows) :
    b ∈ rows := by
  have h1 : b ∈ (rows.filter
      (fun r => r.published_at.isNone && !(locked.contains r.id))).insertionSort
        byCreatedAt := List.take_subset _ _ hb
  have h2 := (List.perm_insertionSort byCreatedAt _).subset h1
  exact List.mem_of_mem_filter h2

theorem fetchBatch_pred {n : Nat} {locked : List Nat}
    {rows : List OutboxRow} {b : OutboxRow} (hb : b ∈ fetchBatch n locked rows) :
    b.published_at = none ∧ locked.contains b.id = false := by
  have h1 : b ∈ (rows.filter
      (fun r => r.published_at.isNone && !(locked.contains r.id))).insertionSort
        byCreatedAt := List.take_subset _ _ hb
  have h2 := (List.perm_insertionSort byCreatedAt _).subset h1
  have h3 := (List.mem_filter.mp h2).2
  simp only [Bool.and_eq_true, Bool.not_eq_true', Option.isNone_iff_eq_none] at h3
  exact h3

theorem fetchBatch_length (n : Nat) (locked : List Nat) (rows : List OutboxRow) :
    (fetchBatch n locked rows).length ≤ n := by
  unfold fetchBatch
  rw [List.length_take]
  exact min_le_left _ _

theorem fetchBatch_sorted (n : Nat) (locked : List Nat) (rows : List OutboxRow) :
    (fetchBatch n locked rows).Pairwise byCreatedAt :=
  List.Pairwise.sublist (List.take_sublist _ _)
    (List.sorted_insertionSort byCreatedAt _)

theorem fetchBatch_ids_nodup {n : Nat} {locked : List Nat} {rows : List OutboxRow}
    (hN : (rows.map (·.id)).Nodup) :
    ((fetchBatch n locked rows).map (·.id)).Nodup := by
  have hf : ((rows.filter
      (fun r => r.published_at.isNone && !(locked.contains r.id))).map (·.id)).Nodup :=
    List.Nodup.sublist (List.Sublist.map _ (List.filter_sublist _)) hN
  have hs : (((rows.filter
      (fun r => r.published_at.isNone && !(locked.contains r.id))).insertionSort
        byCreatedAt).map (·.id)).Nodup :=
    ((List.perm_insertionSort byCreatedAt _).map _).nodup_iff.mpr hf
  exact List.Nodup.sublist (List.Sublist.map _ (List.take_sublist _ _)) hs

/-! ### Lemmas about row lookup -/

theorem lookupRow_eq_some {rows : List OutboxRow} {r : OutboxRow}
    (hN : (rows.map (·.id)).Nodup) (hr : r ∈ rows) :
    lookupRow r.id rows = some r := by
  induction rows with
  | nil => cases hr
  | cons x xs ih =>
    rw [List.map_cons, List.nodup_cons] at hN
    rcases List.mem_cons.mp hr with h | h
    · subst h
      simp [lookupRow, List.find?]
    · have hx : (x.id == r.id) = false := by
        refine beq_eq_false_iff_ne.mpr ?_
        intro he
        exact hN.1 (he ▸ List.mem_map_of_mem (·.id) h)
      unfold lookupRow
      rw [List.find?_cons_of_neg _ (by simp [hx])]
      exact ih hN.2 h

theorem lookupRow_map {rows : List OutboxRow} {f : OutboxRow → OutboxRow}
    (hf : ∀ x, (f x).id = x.id) (i : Nat) :
    lookupRow i (rows.map f) = (lookupRow i rows).map f := by
  induction rows with
  | nil => rfl
  | cons x xs ih =>
    unfold lookupRow
    rw [List.map_cons, List.find?_cons, List.find?_cons]
    have hfx : ((f x).id == i) = (x.id == i) := by rw [hf]
    rw [hfx]
    cases hxi : (x.id == i) with
    | true => rfl
    | false => exact ih

theorem eq_of_mem_id {rows : List OutboxRow} {x r : OutboxRow}
    (hN : (rows.map (·.id)).Nodup) (hx : x ∈ rows) (hr : r ∈ rows)
    (h : x.id = r.id) : x = r := by
  have h1 := lookupRow_eq_some hN hx
  have h2 := lookupRow_eq_some hN hr
  rw [h, h2] at h1
  exact (Option.some.inj h1).symm

/-! ### Lemmas about one record's outcome -/

theorem recordOutcome_id (env : RecordEnv) (now : Nat) (r : OutboxRow) :
    (recordOutcome env now r).id = r.id := by
  rcases env with ⟨pe, se, fu⟩
  cases pe <;> cases se <;> cases fu <;> simp [recordOutcome]

theorem recordOutcome_created_at (env : RecordEnv) (now : Nat) (r : OutboxRow) :
    (recordOutcome env now r).created_at = r.created_at := by
  rcases env with ⟨pe, se, fu⟩
  cases pe <;> cases se <;> cases fu <;> simp [recordOutcome]

theorem recordOutcome_attempt_ge (env : RecordEnv) (now : Nat) (r : OutboxRow) :
    r.attempt_count ≤ (recordOutcome env now r).attempt_count := by
  rcases env with ⟨pe, se, fu⟩
  cases pe <;> cases se <;> cases fu <;> simp [recordOutcome]

theorem recordOutcome_success {env : RecordEnv} (now : Nat) (r : OutboxRow)
    (hpe : env.pubError = none) (hse : env.statusError = none) :
    recordOutcome env now r
      = { r with published_at := some now
                 attempt_count := r.attempt_count + 1
                 last_error := none } := by
  unfold recordOutcome
  rw [hpe, hse]

theorem recordOutcome_pubfail {env : RecordEnv} (now : Nat) (r : OutboxRow)
    {msg : String} (hpe : env.pubError = some msg) (hfu : env.failUpdateOk = true) :
    recordOutcome env now r
      = { r with attempt_count := r.attempt_count + 1
                 last_error := some msg } := by
  unfold recordOutcome
  rw [hpe, hfu]
  simp

/-- The per-record map applied at each step preserves the id column. -/
theorem outcomeIf_id (env : RecordEnv) (now i : Nat) (x : OutboxRow) :
    (if x.id = i then recordOutcome env now x else x).id = x.id := by
  by_cases h : x.id = i <;> simp [h, recordOutcome_id]

theorem map_ids_of_pointwise {rows : List OutboxRow} {f : OutboxRow → OutboxRow}
    (hf : ∀ x, (f x).id = x.id) : (rows.map f).map (·.id) = rows.map (·.id) := by
  rw [List.map_map]
  exact List.map_congr_left (fun x _ => hf x)

/-- `processRecord` in canonical form: under unique ids, processing record
`r` maps every row through its own outcome function and emits the message
exactly when the broker publish did not raise. -/
theorem processRecord_eq {rows : List OutboxRow} {r : OutboxRow}
    (env : RecordEnv) (now : Nat)
    (hN : (rows.map (·.id)).Nodup) (hr : r ∈ rows) :
    processRecord env now r.id rows
      = (rows.map (fun x => if x.id = r.id then recordOutcome env now x else x),
         if env.pubError.isNone then [buildMessage r] else []) := by
  have hl := lookupRow_eq_some hN hr
  unfold processRecord
  rw [hl]
  rcases env with ⟨pe, se, fu⟩
  cases pe with
  | some msg =>
    cases fu with
    | false =>
      simp only [Option.isNone_some, Bool.false_eq_true, if_false, if_neg]
      refine Prod.ext ?_ rfl
      have hg : ∀ x ∈ rows,
          x = (if x.id = r.id
               then recordOutcome ⟨some msg, se, false⟩ now x else x) := by
        intro x _
        by_cases h : x.id = r.id <;> simp [recordOutcome, h]
      simpa using (List.map_congr_left (fun x hx => (hg x hx).symm)).symm
    | true =>
      simp only [if_pos, if_true]
      refine Prod.ext ?_ rfl
      unfold markFailed
      refine List.map_congr_left ?_
      intro x _
      by_cases h : x.id = r.id <;> simp [recordOutcome, h]
  | none =>
    cases se with
    | none =>
      simp only [Option.isNone_none, if_true]
      refine Prod.ext ?_ rfl
      unfold markPublished
      refine List.map_congr_left ?_
      intro x hx
      by_cases h : x.id = r.id
      · have hxr : x = r := eq_of_mem_id hN hx hr h
        subst hxr
        simp [recordOutcome, h]
      · simp [recordOutcome, h]
    | some umsg =>
      cases fu with
      | false =>
        simp only [Option.isNone_none, if_true]
        refine Prod.ext ?_ rfl
        have hg : ∀ x ∈ rows,
            x = (if x.id = r.id
                 then recordOutcome ⟨none, some umsg, false⟩ now x else x) := by
          intro x _
          by_cases h : x.id = r.id <;> simp [recordOutcome, h]
        simpa using (List.map_congr_left (fun x hx => (hg x hx).symm)).symm
      | true =>
        simp only [Option.isNone_none, if_true]
        refine Prod.ext ?_ rfl
        unfold markFailed
        refine List.map_congr_left ?_
        intro x _
        by_cases h : x.id = r.id <;> simp [recordOutcome, h]

/-! ### Canonical form of one dispatch cycle -/

/-- Sequentially processing a claimed batch with pairwise-distinct ids maps
every row of the store through its own outcome function, and emits, in batch
order, exactly the messages of the records whose publish did not raise. -/
theorem runBatch_eq (now : Nat) (env : Nat → RecordEnv) :
    ∀ (batch rows : List OutboxRow),
      (rows.map (·.id)).Nodup → (batch.map (·.id)).Nodup →
      (∀ b ∈ batch, b ∈ rows) →
      runBatch now env (batch.map (·.id)) rows
        = (rows.map (fun x =>
             if x.id ∈ batch.map (·.id) then recordOutcome (env x.id) now x else x),
           batch.filterMap (fun b =>
             if ((env b.id).pubError).isNone then some (buildMessage b) else none))
  | [], rows, hN, _, _ => by
      simp [runBatch]
  | b :: bs, rows, hN, hbN, hmem => by
      have hb : b ∈ rows := hmem b (List.mem_cons_self b bs)
      have hbid : b.id ∉ bs.map (·.id) := by
        rw [List.map_cons, List.nodup_cons] at hbN
        exact hbN.1
      have hbsN : (bs.map (·.id)).Nodup := by
        rw [List.map_cons, List.nodup_cons] at hbN
        exact hbN.2
      have hstep := processRecord_eq (env b.id) now hN hb
      have hN1 : ((rows.map (fun x =>
          if x.id = b.id then recordOutcome (env b.id) now x else x)).map (·.id)).Nodup := by
        rw [map_ids_of_pointwise (outcomeIf_id (env b.id) now b.id)]
        exact hN
      have hmem1 : ∀ b' ∈ bs, b' ∈ rows.map (fun x =>
          if x.id = b.id then recordOutcome (env b.id) now x else x) := by
        intro b' hb'
        have hne : b'.id ≠ b.id := by
          intro he
          exact hbid (he ▸ List.mem_map_of_mem (·.id) hb')
        have := List.mem_map_of_mem
          (fun x => if x.id = b.id then recordOutcome (env b.id) now x else x)
          (hmem b' (List.mem_cons_of_mem b hb'))
        simpa [if_neg hne] using this
      have ih := runBatch_eq now env bs
        (rows.map (fun x => if x.id = b.id then recordOutcome (env b.id) now x else x))
        hN1 hbsN hmem1
      rw [List.map_cons]
      show runBatch now env (b.id :: bs.map (·.id)) rows = _
      unfold runBatch
      rw [hstep]
      dsimp only
      rw [ih]
      dsimp only
      rw [Prod.mk.injEq]
      constructor
      · rw [List.map_map]
        refine List.map_congr_left ?_
        intro x _
        simp only [Function.comp_apply]
        by_cases h : x.id = b.id
        · rw [if_pos h]
          have e2 : (recordOutcome (env b.id) now x).id ∉ bs.map (·.id) := by
            rw [recordOutcome_id, h]
            exact hbid
          rw [if_neg e2]
          have e3 : x.id ∈ b.id :: bs.map (·.id) := by
            rw [h]
            exact List.mem_cons_self _ _
          rw [if_pos e3, h]
        · rw [if_neg h]
          have e4 : (x.id ∈ b.id :: bs.map (·.id)) ↔ x.id ∈ bs.map (·.id) := by
            rw [List.mem_cons]
            exact or_iff_right h
          by_cases h2 : x.id ∈ bs.map (·.id)
          · rw [if_pos h2, if_pos (e4.mpr h2)]
          · rw [if_neg h2, if_neg (fun hc => h2 (e4.mp hc))]
      · rw [List.filterMap_cons]
        cases hpe : ((env b.id).pubError).isNone with
        | true => simp
        | false => simp

/-- One dispatch cycle in canonical form: each row in the claimed batch is
replaced by its own outcome, every other row is untouched, the messages are
those of the batch records whose publish succeeded, the attempted ids are the
batch ids in order, and the cycle sleeps exactly on an empty batch. -/
theorem runCycle_eq (cfg : DispatcherConfig) (env : Nat → RecordEnv) (now : Nat)
    (rows : List OutboxRow) (hN : (rows.map (·.id)).Nodup) :
    runCycle cfg env now rows
      = { rows := rows.map (fun x =>
            if x.id ∈ (fetchBatch cfg.batchSize [] rows).map (·.id)
            then recordOutcome (env x.id) now x else x)
          messages := (fetchBatch cfg.batchSize [] rows).filterMap (fun b =>
            if ((env b.id).pubError).isNone then some (buildMessage b) else none)
          attempted := (fetchBatch cfg.batchSize [] rows).map (·.id)
          slept := (fetchBatch cfg.batchSize [] rows).isEmpty } := by
  unfold runCycle
  cases he : (fetchBatch cfg.batchSize [] rows).isEmpty with
  | true =>
    have hnil : fetchBatch cfg.batchSize [] rows = [] := List.isEmpty_iff.mp he
    rw [hnil]
    simp
  | false =>
    rw [if_neg (by simp [he])]
    rw [runBatch_eq now env (fetchBatch cfg.batchSize [] rows) rows hN
      (fetchBatch_ids_nodup hN) (fun b hb => mem_rows_of_mem_fetchBatch hb)]

/-- A dispatch cycle neither inserts nor deletes rows and never touches the
id column. -/
theorem runCycle_ids (cfg : DispatcherConfig) (env : Nat → RecordEnv) (now : Nat)
    (rows : List OutboxRow) (hN : (rows.map (·.id)).Nodup) :
    (runCycle cfg env now rows).rows.map (·.id) = rows.map (·.id) := by
  rw [runCycle_eq cfg env now rows hN]
  refine map_ids_of_pointwise (fun x => ?_)
  by_cases h : x.id ∈ (fetchBatch cfg.batchSize [] rows).map (·.id) <;>
    simp [h, recordOutcome_id]

/-- A published row is never part of a claimed batch. -/
theorem published_not_in_batch {rows : List OutboxRow} {r : OutboxRow} {t : Nat}
    (hN : (rows.map (·.id)).Nodup) (hr : r ∈ rows) (hp : r.published_at = some t)
    (n : Nat) (locked : List Nat) :
    r.id ∉ (fetchBatch n locked rows).map (·.id) := by
  intro hmem
  rcases List.mem_map.mp hmem with ⟨b, hb, hbid⟩
  have hbr : b = r :=
    eq_of_mem_id hN (mem_rows_of_mem_fetchBatch hb) hr hbid
  have := (fetchBatch_pred hb).1
  rw [hbr, hp] at this
  cases this

/-- A row whose id is outside the claimed batch survives the cycle
unchanged. -/
theorem runCycle_notin_fixed {rows : List OutboxRow} {x : OutboxRow}
    (cfg : DispatcherConfig) (env : Nat → RecordEnv) (now : Nat)
    (hN : (rows.map (·.id)).Nodup) (hx : x ∈ rows)
    (hnot : x.id ∉ (fetchBatch cfg.batchSize [] rows).map (·.id)) :
    x ∈ (runCycle cfg env now rows).rows := by
  rw [runCycle_eq cfg env now rows hN]
  have hfr : (fun y => if y.id ∈ (fetchBatch cfg.batchSize [] rows).map (·.id)
      then recordOutcome (env y.id) now y else y) x = x := by
    dsimp only
    rw [if_neg hnot]
  show x ∈ rows.map (fun y =>
    if y.id ∈ (fetchBatch cfg.batchSize [] rows).map (·.id)
    then recordOutcome (env y.id) now y else y)
  rw [← hfr]
  exact List.mem_map_of_mem _ hx

/-- A published row survives one dispatch cycle completely unchanged. -/
theorem runCycle_published_fixed {rows : List OutboxRow} {r : OutboxRow} {t : Nat}
    (cfg : DispatcherConfig) (env : Nat → RecordEnv) (now : Nat)
    (hN : (rows.map (·.id)).Nodup) (hr : r ∈ rows)
    (hp : r.published_at = some t) :
    r ∈ (runCycle cfg env now rows).rows :=
  runCycle_notin_fixed cfg env now hN hr
    (published_not_in_batch hN hr hp cfg.batchSize [])

/-- Looking a claimed or unclaimed row up after one cycle: a claimed row
carries exactly its own outcome, an unclaimed row is unchanged. -/
theorem runCycle_lookup {rows : List OutboxRow} {r : OutboxRow}
    (cfg : DispatcherConfig) (env : Nat → RecordEnv) (now : Nat)
    (hN : (rows.map (·.id)).Nodup) (hr : r ∈ rows) :
    lookupRow r.id (runCycle cfg env now rows).rows
      = some (if r.id ∈ (fetchBatch cfg.batchSize [] rows).map (·.id)
              then recordOutcome (env r.id) now r else r) := by
  rw [runCycle_eq cfg env now rows hN]
  show lookupRow r.id (rows.map (fun x =>
    if x.id ∈ (fetchBatch cfg.batchSize [] rows).map (·.id)
    then recordOutcome (env x.id) now x else x)) = _
  rw [lookupRow_map (fun x => by
    by_cases h : x.id ∈ (fetchBatch cfg.batchSize [] rows).map (·.id) <;>
      simp [h, recordOutcome_id]) r.id]
  rw [lookupRow_eq_some hN hr]
  rfl

/-- A published row survives any schedule of dispatch cycles (with arbitrary
per-record outcomes and claim-time errors) completely unchanged. -/
theorem runLoop_published_fixed {rows : List OutboxRow} {r : OutboxRow} {t : Nat}
    (cfg : DispatcherConfig)
    (hN : (rows.map (·.id)).Nodup) (hr : r ∈ rows)
    (hp : r.published_at = some t) :
    ∀ ces : List CycleEnv,
      r ∈ (runLoop cfg ces rows).1
      ∧ lookupRow r.id (runLoop cfg ces rows).1 = some r
  | [] => ⟨hr, lookupRow_eq_some hN hr⟩
  | ce :: rest => by
    unfold runLoop runCycleE
    cases hce : ce.claimError with
    | true =>
      rw [if_pos (by simp)]
      dsimp only
      exact runLoop_published_fixed cfg hN hr hp rest
    | false =>
      rw [if_neg (by simp)]
      dsimp only
      have hr' := runCycle_published_fixed cfg ce.recEnv ce.now hN hr hp
      have hN' : ((runCycle cfg ce.recEnv ce.now rows).rows.map (·.id)).Nodup := by
        rw [runCycle_ids cfg ce.recEnv ce.now rows hN]
        exact hN
      exact runLoop_published_fixed cfg hN' hr' hp rest

/-- Emitting a message per filter-passing record: `filterMap` of an
if-then-else equals filtering then mapping. -/
theorem filterMap_ite_eq_filter_map {α β : Type} (p : α → Bool) (f : α → β) :
    ∀ l : List α,
      l.filterMap (fun b => if p b then some (f b) else none)
        = (l.filter p).map f
  | [] => rfl
  | x :: xs => by
    rw [List.filterMap_cons, List.filter_cons]
    cases hp : p x with
    | true => simp [filterMap_ite_eq_filter_map p f xs]
    | false => simp [filterMap_ite_eq_filter_map p f xs]

/-! ### Single-row runs and the bounded-rejection broker -/

theorem fetchBatch_single_pending {r : OutboxRow} (hp : r.published_at = none)
    {n : Nat} (hn : 1 ≤ n) : fetchBatch n [] [r] = [r] := by
  unfold fetchBatch
  have h1 : ([r].filter
      (fun x => x.published_at.isNone && !(([] : List Nat).contains x.id))) = [r] := by
    simp [hp]
  rw [h1]
  have h2 : ([r].insertionSort byCreatedAt) = [r] := rfl
  rw [h2]
  exact List.take_of_length_le (by simpa using hn)

theorem fetchBatch_single_published {r : OutboxRow} {u : Nat}
    (hp : r.published_at = some u) (n : Nat) : fetchBatch n [] [r] = [] := by
  unfold fetchBatch
  have h1 : ([r].filter
      (fun x => x.published_at.isNone && !(([] : List Nat).contains x.id))) = [] := by
    simp [hp]
  rw [h1]
  simp

theorem runCycle_single_pending (cfg : DispatcherConfig) (env : Nat → RecordEnv)
    (now : Nat) {r : OutboxRow} (hp : r.published_at = none)
    (hn : 1 ≤ cfg.batchSize) :
    (runCycle cfg env now [r]).rows = [recordOutcome (env r.id) now r] := by
  rw [runCycle_eq cfg env now [r] (by simp)]
  show [r].map (fun x =>
    if x.id ∈ (fetchBatch cfg.batchSize [] [r]).map (·.id)
    then recordOutcome (env x.id) now x else x) = _
  rw [fetchBatch_single_pending hp hn]
  simp

/-- The broker environment seen by the single pending row. -/
theorem retryEnv_single (acceptFrom : Nat) (r : OutboxRow) :
    retryEnv acceptFrom [r] r.id
      = { pubError := if r.attempt_count < acceptFrom
                      then some "broker rejected" else none
          statusError := none
          failUpdateOk := true } := by
  unfold retryEnv
  have h : lookupRow r.id [r] = some r := by
    simp [lookupRow, List.find?]
  rw [h]

/-- While the broker still rejects, each cycle adds one failed attempt and
records the error, leaving the record pending. -/
theorem retry_fail_phase (cfg : DispatcherConfig) (acceptFrom : Nat)
    (hn : 1 ≤ cfg.batchSize) :
    ∀ (k t : Nat) (r : OutboxRow), r.published_at = none →
      r.attempt_count + k ≤ acceptFrom →
      runRetryCycles cfg acceptFrom k t [r]
        = [{ r with attempt_count := r.attempt_count + k
                    last_error := if k = 0 then r.last_error
                                  else some "broker rejected" }]
  | 0, t, r, hp, hk => by
    simp [runRetryCycles]
  | k + 1, t, r, hp, hk => by
    have hlt : r.attempt_count < acceptFrom := by omega
    unfold runRetryCycles
    rw [runCycle_single_pending cfg _ t hp hn, retryEnv_single acceptFrom r]
    have hout : recordOutcome
        { pubError := if r.attempt_count < acceptFrom
                      then some "broker rejected" else none
          statusError := none
          failUpdateOk := true } t r
        = { r with attempt_count := r.attempt_count + 1
                   last_error := some "broker rejected" } := by
      rw [if_pos hlt]
      rfl
    rw [hout]
    rw [retry_fail_phase cfg acceptFrom hn k (t + 1)
      { r with attempt_count := r.attempt_count + 1
               last_error := some "broker rejected" } hp (by simp; omega)]
    have harith : r.attempt_count + 1 + k = r.attempt_count + (k + 1) := by omega
    cases k with
    | zero => simp [harith]
    | succ m => simp [harith]

/-- Once the broker accepts, the cycle publishes the record: `published_at`
is set to the cycle instant, the attempt count includes the accepting
attempt, and the error is cleared. -/
theorem retry_success_cycle (cfg : DispatcherConfig) (acceptFrom t : Nat)
    {r : OutboxRow} (hp : r.published_at = none)
    (ha : acceptFrom ≤ r.attempt_count) (hn : 1 ≤ cfg.batchSize) :
    (runCycle cfg (retryEnv acceptFrom [r]) t [r]).rows
      = [{ r with published_at := some t
                  attempt_count := r.attempt_count + 1
                  last_error := none }] := by
  rw [runCycle_single_pending cfg _ t hp hn, retryEnv_single acceptFrom r]
  have hout : recordOutcome
      { pubError := if r.attempt_count < acceptFrom
                    then some "broker rejected" else none
        statusError := none
        failUpdateOk := true } t r
      = { r with published_at := some t
                 attempt_count := r.attempt_count + 1
                 last_error := none } := by
    rw [if_neg (by omega)]
    rfl
  rw [hout]

/-- Splitting a run of retry cycles. -/
theorem retry_add (cfg : DispatcherConfig) (acceptFrom : Nat) :
    ∀ (j k t : Nat) (rows : List OutboxRow),
      runRetryCycles cfg acceptFrom (j + k) t rows
        = runRetryCycles cfg acceptFrom k (t + j)
            (runRetryCycles cfg acceptFrom j t rows)
  | 0, k, t, rows => by simp [runRetryCycles]
  | j + 1, k, t, rows => by
    have e : ∀ (m t' : Nat) (rs : List OutboxRow),
        runRetryCycles cfg acceptFrom (m + 1) t' rs
          = runRetryCycles cfg acceptFrom m (t' + 1)
              (runCycle cfg (retryEnv acceptFrom rs) t' rs).rows :=
      fun _ _ _ => rfl
    have h1 : j + 1 + k = (j + k) + 1 := by omega
    rw [h1, e, e]
    rw [retry_add cfg acceptFrom j k (t + 1)]
    have h2 : t + 1 + j = t + (j + 1) := by omega
    rw [h2]

/-- The full bounded-rejection scenario: starting from a fresh pending record,
after `k ≤ N` cycles the attempt count is `k`, the error is recorded whenever
at least one attempt failed, and the record is still pending; the `N + 1`-st
cycle publishes it with attempt count `N + 1` and a cleared error. -/
theorem retry_scenario (cfg : DispatcherConfig) (N t0 : Nat) (r : OutboxRow)
    (hp : r.published_at = none) (ha : r.attempt_count = 0)
    (hl : r.last_error = none) (hn : 1 ≤ cfg.batchSize) :
    (∀ k, k ≤ N → runRetryCycles cfg N k t0 [r]
        = [{ r with attempt_count := k
                    last_error := if k = 0 then none
                                  else some "broker rejected" }])
    ∧ runRetryCycles cfg N (N + 1) t0 [r]
        = [{ r with published_at := some (t0 + N)
                    attempt_count := N + 1
                    last_error := none }] := by
  constructor
  · intro k hk
    rw [retry_fail_phase cfg N hn k t0 r hp (by omega)]
    rw [ha, hl]
    simp
  · rw [retry_add cfg N N 1 t0 [r]]
    rw [retry_fail_phase cfg N hn N t0 r hp (by omega)]
    show runRetryCycles cfg N 1 (t0 + N) _ = _
    unfold runRetryCycles
    rw [retry_success_cycle cfg N (t0 + N)
      (r := { r with attempt_count := r.attempt_count + N
                     last_error := if N = 0 then r.last_error
                                   else some "broker rejected" })
      hp (by simp) hn]
    unfold runRetryCycles
    rw [ha, hl]
    simp

/-! ### Claim theorems -/

/-- C3: one claim by a dispatcher returns at most `batch_size` records, all
with `published_at IS NULL`, none locked by another claimant (skip-locked
read), sorted in ascending `created_at` order; and a single dispatcher then
attempts the claimed records in exactly that order. -/
theorem C3_claim_batch_shape (n : Nat) (locked : List Nat)
    (rows : List OutboxRow) :
    (fetchBatch n locked rows).length ≤ n
    ∧ (∀ b ∈ fetchBatch n locked rows, b.published_at = none)
    ∧ (∀ b ∈ fetchBatch n locked rows, locked.contains b.id = false)
    ∧ (fetchBatch n locked rows).Pairwise byCreatedAt
    ∧ (∀ (cfg : DispatcherConfig) (env : Nat → RecordEnv) (now : Nat)
        (db : List OutboxRow),
        (runCycle cfg env now db).attempted
          = (fetchBatch cfg.batchSize [] db).map (·.id)) := by
  refine ⟨fetchBatch_length n locked rows,
    fun b hb => (fetchBatch_pred hb).1,
    fun b hb => (fetchBatch_pred hb).2,
    fetchBatch_sorted n locked rows, ?_⟩
  intro cfg env now db
  unfold runCycle
  cases he : (fetchBatch cfg.batchSize [] db).isEmpty with
  | true =>
    rw [if_pos (by simp [he])]
    rw [List.isEmpty_iff.mp he]
    rfl
  | false =>
    rw [if_neg (by simp [he])]

/-- C2: a record with `published_at != null` is terminal: the claim query
never returns it (for any batch size and lock set), and across any schedule
of further dispatch cycles — with arbitrary per-record outcomes and
claim-time errors — it is never selected again and none of its fields ever
change. -/
theorem C2_published_terminal (cfg : DispatcherConfig) (rows : List OutboxRow)
    (r : OutboxRow) (t : Nat)
    (hN : (rows.map (·.id)).Nodup) (hr : r ∈ rows)
    (hp : r.published_at = some t) :
    (∀ (n : Nat) (locked : List Nat),
      r.id ∉ (fetchBatch n locked rows).map (·.id))
    ∧ (∀ ces : List CycleEnv,
        lookupRow r.id (runLoop cfg ces rows).1 = some r) :=
  ⟨fun n locked => published_not_in_batch hN hr hp n locked,
   fun ces => (runLoop_published_fixed cfg hN hr hp ces).2⟩

/-- C2 witness: a concrete published row is never re-selected and survives
every schedule of cycles unchanged. -/
theorem C2_published_terminal_witness :
    (([wPublishedRow].map (·.id)).Nodup
      ∧ wPublishedRow ∈ [wPublishedRow]
      ∧ wPublishedRow.published_at = some 3)
    ∧ ((∀ (n : Nat) (locked : List Nat),
          wPublishedRow.id ∉ (fetchBatch n locked [wPublishedRow]).map (·.id))
        ∧ (∀ ces : List CycleEnv,
            lookupRow wPublishedRow.id
              (runLoop ⟨2, 1⟩ ces [wPublishedRow]).1 = some wPublishedRow)) :=
  ⟨⟨by decide, List.mem_singleton_self _, rfl⟩,
   C2_published_terminal ⟨2, 1⟩ [wPublishedRow] wPublishedRow 3
     (by decide) (List.mem_singleton_self _) rfl⟩

/-- C4: when the publish of a claimed record succeeds (and its status update
commits), the dispatcher's single update of that record sets
`published_at = now`, `attempt_count` to its previous value plus one and
`last_error = null`; the update statement touches no other row; and across
the whole cycle, whatever the outcomes, no row's attempt count decreases. -/
theorem C4_success_update (cfg : DispatcherConfig) (env : Nat → RecordEnv)
    (now : Nat) (rows : List OutboxRow) (r : OutboxRow)
    (hN : (rows.map (·.id)).Nodup) (hr : r ∈ rows)
    (hb : r.id ∈ (fetchBatch cfg.batchSize [] rows).map (·.id))
    (hpe : (env r.id).pubError = none) (hse : (env r.id).statusError = none) :
    lookupRow r.id (runCycle cfg env now rows).rows
      = some { r with published_at := some now
                      attempt_count := r.attempt_count + 1
                      last_error := none }
    ∧ (∀ x ∈ rows, x.id ≠ r.id →
        x ∈ markPublished now r.attempt_count r.id rows)
    ∧ (∀ x ∈ rows, ∃ x' ∈ (runCycle cfg env now rows).rows,
        x'.id = x.id ∧ x.attempt_count ≤ x'.attempt_count) := by
  refine ⟨?_, ?_, ?_⟩
  · rw [runCycle_lookup cfg env now hN hr, if_pos hb,
      recordOutcome_success now r hpe hse]
  · intro x hx hne
    unfold markPublished
    have hfx : (fun y => if y.id = r.id then
        { y with published_at := some now
                 attempt_count := r.attempt_count + 1
                 last_error := none } else y) x = x := by
      dsimp only
      rw [if_neg hne]
    show x ∈ rows.map (fun y => if y.id = r.id then
      { y with published_at := some now
               attempt_count := r.attempt_count + 1
               last_error := none } else y)
    rw [← hfx]
    exact List.mem_map_of_mem _ hx
  · intro x hx
    rw [runCycle_eq cfg env now rows hN]
    refine ⟨(fun y => if y.id ∈ (fetchBatch cfg.batchSize [] rows).map (·.id)
             then recordOutcome (env y.id) now y else y) x,
      List.mem_map_of_mem _ hx, ?_, ?_⟩
    · by_cases h : x.id ∈ (fetchBatch cfg.batchSize [] rows).map (·.id) <;>
        simp [h, recordOutcome_id]
    · by_cases h : x.id ∈ (fetchBatch cfg.batchSize [] rows).map (·.id) <;>
        simp [h, recordOutcome_attempt_ge]

/-- C4 witness: one pending row, an always-accepting broker, one cycle. -/
theorem C4_success_update_witness :
    (([traceRow 3 5].map (·.id)).Nodup
      ∧ traceRow 3 5 ∈ [traceRow 3 5]
      ∧ (traceRow 3 5).id ∈ (fetchBatch 1 [] [traceRow 3 5]).map (·.id)
      ∧ (wOkEnv (traceRow 3 5).id).pubError = none
      ∧ (wOkEnv (traceRow 3 5).id).statusError = none)
    ∧ (lookupRow (traceRow 3 5).id
        (runCycle ⟨1, 2⟩ wOkEnv 9 [traceRow 3 5]).rows
        = some { traceRow 3 5 with published_at := some 9
                                   attempt_count := (traceRow 3 5).attempt_count + 1
                                   last_error := none }
      ∧ (∀ x ∈ [traceRow 3 5], x.id ≠ (traceRow 3 5).id →
          x ∈ markPublished 9 (traceRow 3 5).attempt_count (traceRow 3 5).id
            [traceRow 3 5])
      ∧ (∀ x ∈ [traceRow 3 5],
          ∃ x' ∈ (runCycle ⟨1, 2⟩ wOkEnv 9 [traceRow 3 5]).rows,
            x'.id = x.id ∧ x.attempt_count ≤ x'.attempt_count)) :=
  ⟨⟨by decide, List.mem_singleton_self _, by decide, rfl, rfl⟩,
   C4_success_update ⟨1, 2⟩ wOkEnv 9 [traceRow 3 5] (traceRow 3 5)
     (by decide) (List.mem_singleton_self _) (by decide) rfl rfl⟩

/-- C6: per-record failures are isolated: whatever each record's publish and
update outcomes are, every claimed record is attempted; rows outside the
batch are untouched; each claimed record's final state is a function of its
own outcome alone (so one record's failure neither aborts nor rolls back
another's); and an error in the claim itself aborts only that cycle — the
store is left untouched, the dispatcher sleeps, and the loop continues with
the remaining cycles instead of exiting. -/
theorem C6_record_isolation (cfg : DispatcherConfig) (env : Nat → RecordEnv)
    (now : Nat) (rows : List OutboxRow) (hN : (rows.map (·.id)).Nodup) :
    (runCycle cfg env now rows).attempted
      = (fetchBatch cfg.batchSize [] rows).map (·.id)
    ∧ (∀ x ∈ rows, x.id ∉ (fetchBatch cfg.batchSize [] rows).map (·.id) →
        x ∈ (runCycle cfg env now rows).rows)
    ∧ (∀ x ∈ rows, x.id ∈ (fetchBatch cfg.batchSize [] rows).map (·.id) →
        lookupRow x.id (runCycle cfg env now rows).rows
          = some (recordOutcome (env x.id) now x))
    ∧ (∀ (ce : CycleEnv) (rest : List CycleEnv), ce.claimError = true →
        runCycleE cfg ce rows
          = { rows := rows, messages := [], attempted := [], slept := true }
        ∧ runLoop cfg (ce :: rest) rows = runLoop cfg rest rows) := by
  refine ⟨?_, ?_, ?_, ?_⟩
  · rw [runCycle_eq cfg env now rows hN]
  · intro x hx hnot
    exact runCycle_notin_fixed cfg env now hN hx hnot
  · intro x hx hmem
    rw [runCycle_lookup cfg env now hN hx, if_pos hmem]
  · intro ce rest hce
    constructor
    · unfold runCycleE
      rw [if_pos (by simp [hce])]
    · have e : runLoop cfg (ce :: rest) rows
          = ((runLoop cfg rest (runCycleE cfg ce rows).rows).1,
             (runCycleE cfg ce rows).messages
               ++ (runLoop cfg rest (runCycleE cfg ce rows).rows).2) := rfl
      have hres : runCycleE cfg ce rows
          = { rows := rows, messages := [], attempted := [], slept := true } := by
        unfold runCycleE
        rw [if_pos (by simp [hce])]
      rw [e, hres]
      simp

/-- C6 witness: a batch of two pending rows where the first record's publish
raises and the second succeeds, plus a claim-time error cycle. -/
theorem C6_record_isolation_witness :
    (([traceRow 1 1, traceRow 2 2].map (·.id)).Nodup)
    ∧ ((runCycle ⟨2, 1⟩ (fun i => if i = 1
          then { pubError := some "boom", statusError := none,
                 failUpdateOk := true }
          else { pubError := none, statusError := none,
                 failUpdateOk := true }) 7 [traceRow 1 1, traceRow 2 2]).attempted
        = (fetchBatch 2 [] [traceRow 1 1, traceRow 2 2]).map (·.id)
      ∧ (∀ x ∈ [traceRow 1 1, traceRow 2 2],
          x.id ∉ (fetchBatch 2 [] [traceRow 1 1, traceRow 2 2]).map (·.id) →
          x ∈ (runCycle ⟨2, 1⟩ (fun i => if i = 1
            then { pubError := some "boom", statusError := none,
                   failUpdateOk := true }
            else { pubError := none, statusError := none,
                   failUpdateOk := true }) 7 [traceRow 1 1, traceRow 2 2]).rows)
      ∧ (∀ x ∈ [traceRow 1 1, traceRow 2 2],
          x.id ∈ (fetchBatch 2 [] [traceRow 1 1, traceRow 2 2]).map (·.id) →
          lookupRow x.id (runCycle ⟨2, 1⟩ (fun i => if i = 1
            then { pubError := some "boom", statusError := none,
                   failUpdateOk := true }
            else { pubError := none, statusError := none,
                   failUpdateOk := true }) 7 [traceRow 1 1, traceRow 2 2]).rows
            = some (recordOutcome ((fun i => if i = 1
                then { pubError := some "boom", statusError := none,
                       failUpdateOk := true }
                else { pubError := none, statusError := none,
                       failUpdateOk := true }) x.id) 7 x))
      ∧ (∀ (ce : CycleEnv) (rest : List CycleEnv), ce.claimError = true →
          runCycleE ⟨2, 1⟩ ce [traceRow 1 1, traceRow 2 2]
            = { rows := [traceRow 1 1, traceRow 2 2], messages := [],
                attempted := [], slept := true }
          ∧ runLoop ⟨2, 1⟩ (ce :: rest) [traceRow 1 1, traceRow 2 2]
              = runLoop ⟨2, 1⟩ rest [traceRow 1 1, traceRow 2 2])) :=
  ⟨by decide,
   C6_record_isolation ⟨2, 1⟩ (fun i => if i = 1
     then { pubError := some "boom", statusError := none, failUpdateOk := true }
     else { pubError := none, statusError := none, failUpdateOk := true })
     7 [traceRow 1 1, traceRow 2 2] (by decide)⟩

/-- C7: every message the dispatcher hands to the broker is built from the
claimed record it belongs to, and carries the durable topic exchange
`domain.events`, routing key `aggregate_type ++ "." ++ event_type`, the
JSON-encoded payload as body, persistent delivery mode 2 and exactly the
five headers `event_id` (the id as a string), `event_type`,
`aggregate_type`, `aggregate_id`, `event_version`. -/
theorem C7_publish_contract (cfg : DispatcherConfig) (env : Nat → RecordEnv)
    (now : Nat) (rows : List OutboxRow) (hN : (rows.map (·.id)).Nodup) :
    (runCycle cfg env now rows).messages
      = ((fetchBatch cfg.batchSize [] rows).filter
          (fun b => ((env b.id).pubError).isNone)).map buildMessage
    ∧ ∀ r : OutboxRow,
        (buildMessage r).exchange = "domain.events"
        ∧ (buildMessage r).exchangeType = "topic"
        ∧ (buildMessage r).durable = true
        ∧ (buildMessage r).routingKey = r.aggregate_type ++ "." ++ r.event_type
        ∧ (buildMessage r).body = Json.encode r.payload
        ∧ (buildMessage r).deliveryMode = 2
        ∧ (buildMessage r).contentType = "application/json"
        ∧ (buildMessage r).headers
            = [("event_id", toString r.id),
               ("event_type", r.event_type),
               ("aggregate_type", r.aggregate_type),
               ("aggregate_id", r.aggregate_id),
               ("event_version", toString r.event_version)] := by
  constructor
  · rw [runCycle_eq cfg env now rows hN]
    exact filterMap_ite_eq_filter_map _ buildMessage _
  · intro r
    exact ⟨rfl, rfl, rfl, rfl, rfl, rfl, rfl, rfl⟩

/-- C7 witness: the single message of a one-row cycle carries the full
contract. -/
theorem C7_publish_contract_witness :
    (([traceRow 3 5].map (·.id)).Nodup)
    ∧ ((runCycle ⟨1, 2⟩ wOkEnv 9 [traceRow 3 5]).messages
        = ((fetchBatch 1 [] [traceRow 3 5]).filter
            (fun b => ((wOkEnv b.id).pubError).isNone)).map buildMessage
      ∧ ∀ r : OutboxRow,
          (buildMessage r).exchange = "domain.events"
          ∧ (buildMessage r).exchangeType = "topic"
          ∧ (buildMessage r).durable = true
          ∧ (buildMessage r).routingKey = r.aggregate_type ++ "." ++ r.event_type
          ∧ (buildMessage r).body = Json.encode r.payload
          ∧ (buildMessage r).deliveryMode = 2
          ∧ (buildMessage r).contentType = "application/json"
          ∧ (buildMessage r).headers
              = [("event_id", toString r.id),
                 ("event_type", r.event_type),
                 ("aggregate_type", r.aggregate_type),
                 ("aggregate_id", r.aggregate_id),
                 ("event_version", toString r.event_version)]) :=
  ⟨by decide, C7_publish_contract ⟨1, 2⟩ wOkEnv 9 [traceRow 3 5] (by decide)⟩

/-- C5: when the publish of a claimed record fails and the failure-path
update commits, that record's `attempt_count` rises by exactly one,
`last_error` records the failure, and `published_at` is untouched (so a
pending record stays pending and claim-eligible); and against a broker that
rejects a record's first N attempts and then accepts, the attempt count
rises by one per cycle, the error stays non-null until success, and
`published_at` is set exactly on the accepting attempt. -/
theorem C5_failure_update (cfg : DispatcherConfig) (env : Nat → RecordEnv)
    (now : Nat) (rows : List OutboxRow) (r : OutboxRow) (msg : String)
    (hN : (rows.map (·.id)).Nodup) (hr : r ∈ rows)
    (hb : r.id ∈ (fetchBatch cfg.batchSize [] rows).map (·.id))
    (hpe : (env r.id).pubError = some msg)
    (hfu : (env r.id).failUpdateOk = true) :
    lookupRow r.id (runCycle cfg env now rows).rows
      = some { r with attempt_count := r.attempt_count + 1
                      last_error := some msg }
    ∧ ({ r with attempt_count := r.attempt_count + 1
                last_error := some msg } : OutboxRow).published_at
        = r.published_at
    ∧ (∀ (N t0 : Nat) (r0 : OutboxRow), r0.published_at = none →
        r0.attempt_count = 0 → r0.last_error = none → 1 ≤ cfg.batchSize →
        (∀ k, k ≤ N → runRetryCycles cfg N k t0 [r0]
            = [{ r0 with attempt_count := k
                         last_error := if k = 0 then none
                                       else some "broker rejected" }])
        ∧ runRetryCycles cfg N (N + 1) t0 [r0]
            = [{ r0 with published_at := some (t0 + N)
                         attempt_count := N + 1
                         last_error := none }]) := by
  refine ⟨?_, rfl, ?_⟩
  · rw [runCycle_lookup cfg env now hN hr, if_pos hb,
      recordOutcome_pubfail now r hpe hfu]
  · intro N t0 r0 h1 h2 h3 h4
    exact retry_scenario cfg N t0 r0 h1 h2 h3 h4

/-- C5 witness: one pending row, a broker that raises, one cycle; the retry
scenario instantiated as well. -/
theorem C5_failure_update_witness :
    (([traceRow 3 5].map (·.id)).Nodup
      ∧ traceRow 3 5 ∈ [traceRow 3 5]
      ∧ (traceRow 3 5).id ∈ (fetchBatch 1 [] [traceRow 3 5]).map (·.id)
      ∧ (wFailEnv (traceRow 3 5).id).pubError = some "connection refused"
      ∧ (wFailEnv (traceRow 3 5).id).failUpdateOk = true)
    ∧ (lookupRow (traceRow 3 5).id
        (runCycle ⟨1, 2⟩ wFailEnv 9 [traceRow 3 5]).rows
        = some { traceRow 3 5 with
                   attempt_count := (traceRow 3 5).attempt_count + 1
                   last_error := some "connection refused" }
      ∧ ({ traceRow 3 5 with
             attempt_count := (traceRow 3 5).attempt_count + 1
             last_error := some "connection refused" } : OutboxRow).published_at
          = (traceRow 3 5).published_at
      ∧ (∀ (N t0 : Nat) (r0 : OutboxRow), r0.published_at = none →
          r0.attempt_count = 0 → r0.last_error = none →
          1 ≤ (DispatcherConfig.mk 1 2).batchSize →
          (∀ k, k ≤ N → runRetryCycles ⟨1, 2⟩ N k t0 [r0]
              = [{ r0 with attempt_count := k
                           last_error := if k = 0 then none
                                         else some "broker rejected" }])
          ∧ runRetryCycles ⟨1, 2⟩ N (N + 1) t0 [r0]
              = [{ r0 with published_at := some (t0 + N)
                           attempt_count := N + 1
                           last_error := none }])) :=
  ⟨⟨by decide, List.mem_singleton_self _, by decide, rfl, rfl⟩,
   C5_failure_update ⟨1, 2⟩ wFailEnv 9 [traceRow 3 5] (traceRow 3 5)
     "connection refused" (by decide) (List.mem_singleton_self _)
     (by decide) rfl rfl⟩

/-- C1: the claim-window exclusivity the spec asserts fails on the code.  In
the concrete two-dispatcher interleaving `traceSched`, dispatcher 0's claim
query returns rows 1 and 2; its per-record `session.commit()` after row 1
releases the `FOR UPDATE` lock on row 2 (locks are transaction-scoped), upon
which dispatcher 1 claims and publishes row 2 — inside dispatcher 0's claim
window for row 2, which ends only with dispatcher 0's own later commit of
row 2's status update.  Row 2 is published twice, once per dispatcher, and
its published row is even mutated again by dispatcher 0's late update. -/
theorem C1_claim_window_race :
    (doClaim 2 0 traceInit).queues.getD 0 [] = [1, 2]
    ∧ (runActs 2 traceSched traceInit).published = [(0, 1), (1, 2), (0, 2)]
    ∧ (runActs 2 traceSched traceInit).commits = [(0, 1), (1, 2), (0, 2)]
    ∧ ((runActs 2 traceSched traceInit).published.filter
        (fun p => p.2 == 2)).length = 2
    ∧ lookupRow 2 (runActs 2 traceSched traceInit).rows
        = some { traceRow 2 2 with published_at := some 30
                                   attempt_count := 2 } :=
  ⟨rfl, rfl, rfl, rfl, rfl⟩

/-- C8: `add_outbox_event` performs exactly one session operation — staging
the constructed event — and in particular never commits, never rolls back
and makes no network call; applying its operations leaves the durable table
untouched and appends the event to the staged set; a subsequent caller
rollback erases it, while a subsequent caller commit makes all staged events
durable, each inserted with `published_at = null` and `attempt_count = 0`. -/
theorem C8_enqueue_stages_only (now : Nat) (et : String) (pl : Json)
    (agt agi : String) (ev : Nat) (oc : Option Nat)
    (cn sn bid : Nat) (s : DbSession) :
    (add_outbox_event now et pl agt agi ev oc).2
      = [SessionOp.add (add_outbox_event now et pl agt agi ev oc).1]
    ∧ SessionOp.commitTx ∉ (add_outbox_event now et pl agt agi ev oc).2
    ∧ SessionOp.rollbackTx ∉ (add_outbox_event now et pl agt agi ev oc).2
    ∧ SessionOp.networkCall ∉ (add_outbox_event now et pl agt agi ev oc).2
    ∧ (applyOps cn sn bid (add_outbox_event now et pl agt agi ev oc).2 s).staged
        = s.staged ++ [(add_outbox_event now et pl agt agi ev oc).1]
    ∧ (applyOps cn sn bid (add_outbox_event now et pl agt agi ev oc).2 s).durable
        = s.durable
    ∧ (rollbackSession
        (applyOps cn sn bid (add_outbox_event now et pl agt agi ev oc).2 s)).durable
        = s.durable
    ∧ (rollbackSession
        (applyOps cn sn bid (add_outbox_event now et pl agt agi ev oc).2 s)).staged
        = []
    ∧ (commitSession cn sn bid
        (applyOps cn sn bid (add_outbox_event now et pl agt agi ev oc).2 s)).durable
        = s.durable ++
          ((s.staged ++ [(add_outbox_event now et pl agt agi ev oc).1]).enum.map
            (fun p => ormInsert cn sn (bid + p.1) p.2))
    ∧ (∀ (c srv i : Nat) (e : StagedEvent),
        (ormInsert c srv i e).published_at = none
        ∧ (ormInsert c srv i e).attempt_count = 0) := by
  refine ⟨rfl,
    fun h => SessionOp.noConfusion (List.mem_singleton.mp h),
    fun h => SessionOp.noConfusion (List.mem_singleton.mp h),
    fun h => SessionOp.noConfusion (List.mem_singleton.mp h),
    rfl, rfl, rfl, rfl, rfl,
    fun c srv i e => ⟨rfl, rfl⟩⟩

/-- C9 as stated is false on the code: the ORM model gives `created_at` a
client-side Python default (`default=datetime.datetime.utcnow` in
`models/outbox.py` line 23), so the flush includes the column in the INSERT
and the migration's server default `now()` never fires for rows written
through the application.  With client clock 5 and server clock 99, the
durable row carries the client's 5, not the server's 99. -/
theorem C9_created_at_counterexample :
    (ormInsert 5 99 7 wStagedEvent).created_at = 5
    ∧ (ormInsert 5 99 7 wStagedEvent).created_at ≠ 99 :=
  ⟨rfl, by decide⟩

/-- C9 amended: `created_at` is assigned exactly once, at insert; for rows
written through the ORM model it carries the writing client's clock (the
Python column default), while the migration's server-side default `now()`
applies only to an INSERT that omits the column; and no dispatcher update
ever changes `created_at` afterwards. -/
theorem C9_created_at_amended (cn sn i : Nat) (e : StagedEvent)
    (v : InsertValues) :
    (ormInsert cn sn i e).created_at = cn
    ∧ (v.created_at = none → (sqlInsert sn v).created_at = sn)
    ∧ (∀ (now a tId : Nat) (rows : List OutboxRow),
        (markPublished now a tId rows).map (·.created_at)
          = rows.map (·.created_at))
    ∧ (∀ (msg : String) (tId : Nat) (rows : List OutboxRow),
        (markFailed msg tId rows).map (·.created_at)
          = rows.map (·.created_at)) := by
  refine ⟨rfl, ?_, ?_, ?_⟩
  · intro h
    unfold sqlInsert
    rw [h]
    rfl
  · intro t a tId rows
    unfold markPublished
    rw [List.map_map]
    refine List.map_congr_left ?_
    intro x _
    by_cases hx : x.id = tId <;> simp [hx]
  · intro msg tId rows
    unfold markFailed
    rw [List.map_map]
    refine List.map_congr_left ?_
    intro x _
    by_cases hx : x.id = tId <;> simp [hx]

/-- C10: calling `add_outbox_event` with the optional arguments omitted
yields the defaults `aggregate_type = "DomainEvent"`, `aggregate_id = "0"`,
`event_version = 1`, and `occurred_at` equal to the current clock; the
required arguments come through unchanged. -/
theorem C10_enqueue_defaults (now : Nat) (et : String) (pl : Json) :
    (add_outbox_event now et pl).1.aggregate_type = "DomainEvent"
    ∧ (add_outbox_event now et pl).1.aggregate_id = "0"
    ∧ (add_outbox_event now et pl).1.event_version = 1
    ∧ (add_outbox_event now et pl).1.occurred_at = now
    ∧ (add_outbox_event now et pl).1.event_type = et
    ∧ (add_outbox_event now et pl).1.payload = pl :=
  ⟨rfl, rfl, rfl, rfl, rfl, rfl⟩

end Aequatio
